import Mathlib

/-!
Verification of the RFP Radar matching/retrieval layer.

The definitions below are shallow embeddings of the SQL code in
`supabase/migrations/20251108_semantic_search_functions.sql` and of the
`match_snapshots` / `company_skill_embeddings` tables of the database schema.
SQL float arithmetic is modelled over `ℚ` (exact weighted sums); the pgvector
cosine distance operator `<=>` is modelled separately over `ℝ` (it involves a
square root).  SQL result sets ordered by a single `ORDER BY` key are modelled
with a stable sort over the table scan order, which is one legal realization of
PostgreSQL's (otherwise unspecified) ordering of equal keys.
-/

namespace RfpRadar

/-- Fuel-driven matcher for SQL `LIKE` patterns over lowered character lists:
`%` matches any sequence, `_` any single character, other characters literally.
The fuel is consumed once per step; `likeMatch` supplies more fuel than any
derivation can consume, so the cutoff branch is never reached. -/
def likeMatchFuel : Nat → List Char → List Char → Bool
  | 0, _, _ => false
  | _ + 1, [], s => s.isEmpty
  | fuel + 1, '%' :: ps, [] => likeMatchFuel fuel ps []
  | fuel + 1, '%' :: ps, c :: t =>
      likeMatchFuel fuel ps (c :: t) || likeMatchFuel fuel ('%' :: ps) t
  | fuel + 1, '_' :: ps, _ :: t => likeMatchFuel fuel ps t
  | _ + 1, _ :: _, [] => false
  | fuel + 1, p :: ps, c :: t => (p == c) && likeMatchFuel fuel ps t

/-- Matching of a full SQL `LIKE` pattern against a string. -/
def likeMatch (pat s : List Char) : Bool :=
  likeMatchFuel ((pat.length + s.length) * (s.length + 1) + 1) pat s

/-- Character list of a string with every character lowered, the common case
fold that `ILIKE` applies to both of its operands. -/
def lowerChars (s : String) : List Char :=
  s.toList.map Char.toLower

/-- Model of `field ILIKE '%' || query_text || '%'` (case-insensitive match of
the pattern `%query%`), as used in the `keyword_results` CTE of
`hybrid_search_rfps` (migration lines 176-186). -/
def sqlIlikeContains (field q : String) : Bool :=
  likeMatch ('%' :: (lowerChars q ++ ['%'])) (lowerChars field)

/-- ILIKE against a nullable column: `NULL ILIKE p` is not true in SQL. -/
def optIlikeContains (field : Option String) (q : String) : Bool :=
  match field with
  | none => false
  | some f => sqlIlikeContains f q

/-- Row of the `rfps` table, restricted to the columns the search functions
read.  `title`, `description` and `issuing_org` are `NOT NULL` in the schema,
`category` (added by the KKJ migration) and `embedding` are nullable.  The
embedding payload type is abstract: the search function only passes it to the
distance operator. -/
structure Rfp (α : Type) where
  id : Nat
  title : String
  description : String
  category : Option String
  issuing_org : String
  embedding : Option α
  deriving Repr, DecidableEq

/-- Keyword score of one RFP for a query text: the `CASE` expression of the
`keyword_results` CTE (migration lines 176-186).  First matching branch wins:
title 1.0, description 0.5, category 0.3, issuing organization 0.2, else 0. -/
def keyword_score_raw {α : Type} (queryText : String) (r : Rfp α) : ℚ :=
  if sqlIlikeContains r.title queryText then 1
  else if sqlIlikeContains r.description queryText then 1 / 2
  else if optIlikeContains r.category queryText then 3 / 10
  else if sqlIlikeContains r.issuing_org queryText then 1 / 5
  else 0

/-- Semantic score of one RFP: `1 - (r.embedding <=> query_embedding)` for rows
with an embedding (the `semantic_results` CTE, migration lines 164-171), absent
otherwise.  The distance operator is a parameter. -/
def semantic_score_raw {α : Type} (dist : α → α → ℚ) (qe : α) (r : Rfp α) :
    Option ℚ :=
  r.embedding.map (fun e => 1 - dist e qe)

/-- The `COALESCE(sr.semantic_score_raw, 0.0)` value of the `combined_results`
CTE: a missing semantic signal contributes 0. -/
def semantic_score_coalesced {α : Type} (dist : α → α → ℚ) (qe : α)
    (r : Rfp α) : ℚ :=
  (semantic_score_raw dist qe r).getD 0

/-- One output row of `hybrid_search_rfps`: the RFP together with its three
scores and the `has_embedding` flag. -/
structure HybridRow (α : Type) where
  rfp : Rfp α
  semantic_score : ℚ
  keyword_score : ℚ
  combined_score : ℚ
  has_embedding : Bool
  deriving Repr, DecidableEq

/-- Score computation of the `combined_results` CTE for one row, with
`semantic_weight := 0.7` and `keyword_weight := 0.3` (migration lines
146-148 and 189-198). -/
def mkHybridRow {α : Type} (dist : α → α → ℚ) (qe : α) (queryText : String)
    (r : Rfp α) : HybridRow α :=
  let sem := semantic_score_coalesced dist qe r
  let kw := keyword_score_raw queryText r
  { rfp := r
    semantic_score := sem
    keyword_score := kw
    combined_score := sem * (7 / 10) + kw * (3 / 10)
    has_embedding := r.embedding.isSome }

/-- The `combined_results` CTE: every RFP of the table joined with its two
scores, kept only when at least one raw signal is strictly positive
(migration lines 189-206).  The join on the primary key `id` is row-wise. -/
def combined_results {α : Type} (dist : α → α → ℚ) (qe : α)
    (queryText : String) (db : List (Rfp α)) : List (HybridRow α) :=
  (db.map (mkHybridRow dist qe queryText)).filter
    (fun row => 0 < row.semantic_score || 0 < row.keyword_score)

/-- Ordering relation of the final `ORDER BY cr.combined_score DESC`
(migration line 236): the single sort key is the combined score, descending. -/
def hybridRowGe {α : Type} (x y : HybridRow α) : Prop :=
  y.combined_score ≤ x.combined_score

instance {α : Type} : DecidableRel (@hybridRowGe α) :=
  fun x y => inferInstanceAs (Decidable (y.combined_score ≤ x.combined_score))

instance {α : Type} : IsTotal (HybridRow α) hybridRowGe :=
  ⟨fun x y => le_total y.combined_score x.combined_score⟩

instance {α : Type} : IsTrans (HybridRow α) hybridRowGe :=
  ⟨fun _ _ _ h1 h2 => le_trans h2 h1⟩

/-- Model of `hybrid_search_rfps` after input validation: candidate rows,
sorted by descending combined score (stable in table order), truncated to
`result_limit` (migration lines 163-237). -/
def hybrid_search_rfps {α : Type} (dist : α → α → ℚ) (qe : α)
    (queryText : String) (resultLimit : Int) (db : List (Rfp α)) :
    List (HybridRow α) :=
  ((combined_results dist qe queryText db).insertionSort hybridRowGe).take
    resultLimit.toNat

/-- Full model of `hybrid_search_rfps` including the input validation
(migration lines 150-161): empty query text or an out-of-range limit raises. -/
def hybrid_search_rfps_checked {α : Type} (dist : α → α → ℚ) (qe : α)
    (queryText : String) (resultLimit : Int) (db : List (Rfp α)) :
    Except String (List (HybridRow α)) :=
  if queryText.trim = "" then
    Except.error ("query_text cannot be NULL or empty")
  else if resultLimit ≤ 0 ∨ 100 < resultLimit then
    Except.error ("result_limit must be between 1 and 100")
  else
    Except.ok (hybrid_search_rfps dist qe queryText resultLimit db)

/-- One output row of `search_rfps_by_embedding`. -/
structure SemanticRow (α : Type) where
  rfp : Rfp α
  similarity_score : ℚ
  has_embedding : Bool
  deriving Repr, DecidableEq

/-- Ordering of `search_rfps_by_embedding`: `ORDER BY r.embedding <=>
query_embedding` ascending, i.e. similarity `1 - distance` descending. -/
def semanticRowGe {α : Type} (x y : SemanticRow α) : Prop :=
  y.similarity_score ≤ x.similarity_score

instance {α : Type} : DecidableRel (@semanticRowGe α) :=
  fun x y => inferInstanceAs (Decidable (y.similarity_score ≤ x.similarity_score))

instance {α : Type} : IsTotal (SemanticRow α) semanticRowGe :=
  ⟨fun x y => le_total y.similarity_score x.similarity_score⟩

instance {α : Type} : IsTrans (SemanticRow α) semanticRowGe :=
  ⟨fun _ _ _ h1 h2 => le_trans h2 h1⟩

/-- Model of `search_rfps_by_embedding` after input validation (migration
lines 63-94): rows with an embedding whose similarity `1 - distance` reaches
the threshold, ordered by ascending distance, truncated to the limit. -/
def search_rfps_by_embedding {α : Type} (dist : α → α → ℚ) (qe : α)
    (similarityThreshold : ℚ) (resultLimit : Int) (db : List (Rfp α)) :
    List (SemanticRow α) :=
  ((db.filterMap (fun r =>
      match r.embedding with
      | none => none
      | some e =>
          if similarityThreshold ≤ 1 - dist e qe then
            some { rfp := r, similarity_score := 1 - dist e qe,
                   has_embedding := true }
          else none)).insertionSort semanticRowGe).take resultLimit.toNat

/-! ### Real-valued model of the pgvector cosine distance

The SQL operator `<=>` on `vector(1536)` computes the cosine distance
`1 - (a · b) / sqrt((a · a) * (b · b))`.  The semantic score of the search
functions is `1 - (r.embedding <=> query_embedding)` (migration lines 88 and
168). -/

/-- Dot product of two 1536-dimensional real vectors. -/
noncomputable def dotProduct1536 (a b : Fin 1536 → ℝ) : ℝ :=
  ∑ i, a i * b i

/-- Cosine distance of pgvector's `<=>` operator on `vector(1536)`. -/
noncomputable def cosineDistance (a b : Fin 1536 → ℝ) : ℝ :=
  1 - dotProduct1536 a b / Real.sqrt (dotProduct1536 a a * dotProduct1536 b b)

/-- Semantic signal of an RFP embedding against the query embedding:
`1 - (r.embedding <=> query_embedding)` (migration lines 88 and 168). -/
noncomputable def semanticSignal (emb qe : Fin 1536 → ℝ) : ℝ :=
  1 - cosineDistance emb qe

/-! ### The `match_snapshots` store

Schema (database schema lines 297-318): `score INTEGER NOT NULL CHECK
(score >= 0 AND score <= 100)`, three boolean gate flags, a `factors` JSONB
object that must contain the keys `skill`, `must`, `budget`, `deadline`,
`region`, and summary points.  Inserts and deletes are performed by the
service role only. -/

/-- A row of `match_snapshots`.  Uuids are modelled by naturals, the JSONB
`factors` object by its list of keyed rational entries. -/
structure MatchSnapshot where
  user_id : Nat
  rfp_id : Nat
  score : Int
  must_ok : Bool
  budget_ok : Bool
  region_ok : Bool
  factors : List (String × ℚ)
  summary_points : List String
  deriving Repr, DecidableEq

/-- Check constraints of `match_snapshots`: the score bound (line 301) and the
`valid_factors` key-presence constraint (lines 310-317). -/
def snapshotRowOk (s : MatchSnapshot) : Bool :=
  decide (0 ≤ s.score) && decide (s.score ≤ 100) &&
    (["skill", "must", "budget", "deadline", "region"].all
      (fun k => (s.factors.map (fun kv => kv.1)).contains k))

/-- A write operation against the `match_snapshots` table: an `INSERT` of one
row, or a `DELETE` of the rows satisfying a condition. -/
inductive SnapshotOp where
  | ins (s : MatchSnapshot)
  | del (cond : MatchSnapshot → Bool)

/-- Effect of one operation on the table contents.  An `INSERT` violating a
check constraint is rejected by PostgreSQL and leaves the table unchanged; a
`DELETE` removes the matching rows. -/
def applySnapshotOp (db : List MatchSnapshot) : SnapshotOp → List MatchSnapshot
  | SnapshotOp.ins s => if snapshotRowOk s then db ++ [s] else db
  | SnapshotOp.del cond => db.filter (fun t => !cond t)

/-- The current snapshots of one (company user, RFP) pair. -/
def currentSnapshots (db : List MatchSnapshot) (u r : Nat) :
    List MatchSnapshot :=
  db.filter (fun t => t.user_id == u && t.rfp_id == r)

/-- Modelled from the spec: the Snapshot Writer of the batch process
(`apps/api/batch/calculate_matching.py`, absent from the sources) persists one
scored result per (company user, RFP) pair with replace-semantics — "the new
snapshot supersedes the old one as a single logical operation (transactional
delete+insert)".  Realized against the `match_snapshots` table as the delete
of the pair's rows followed by the checked insert of the new row. -/
def writeMatchSnapshot (db : List MatchSnapshot) (s : MatchSnapshot) :
    List MatchSnapshot :=
  applySnapshotOp
    (applySnapshotOp db
      (SnapshotOp.del (fun t => t.user_id == s.user_id && t.rfp_id == s.rfp_id)))
    (SnapshotOp.ins s)

/-! ### The `company_skill_embeddings` trigger

`update_company_skill_embeddings` (migration lines 252-302) runs `AFTER INSERT
OR UPDATE OF skills ON companies FOR EACH ROW`.  Its body deletes the
company's rows from `company_skill_embeddings`, then — when the new skills
array is non-NULL and non-empty — inserts one row per skill with a `NULL`
embedding placeholder.  The body has a `WHEN OTHERS` exception handler: a
caught error rolls the body's changes back (PL/pgSQL block semantics), emits a
warning and still returns `NEW`.  The schema declares
`company_skill_embeddings.embedding vector(1536) NOT NULL` (schema line
366). -/

/-- A row of `company_skill_embeddings`.  The embedding is optional in the
model so that the `NOT NULL` constraint can be expressed as a check. -/
structure CseRow where
  company_id : Nat
  skill_text : String
  embedding : Option (List ℚ)
  deriving Repr, DecidableEq

/-- The `NOT NULL` constraint on `company_skill_embeddings.embedding`
(schema line 366). -/
def cseRowNotNullOk (row : CseRow) : Bool :=
  row.embedding.isSome

/-- Rows produced by the trigger's `INSERT ... SELECT NEW.id,
unnest(NEW.skills), NULL, now(), now()` (migration lines 270-282): one row per
skill, each with a `NULL` embedding placeholder. -/
def triggerNewRows (companyId : Nat) (skills : List String) : List CseRow :=
  skills.map (fun sk =>
    { company_id := companyId, skill_text := sk, embedding := none })

/-- Body of `update_company_skill_embeddings` (migration lines 258-285):
delete the company's rows, then insert the placeholder rows when the skills
array is non-NULL and non-empty (`array_length(NEW.skills, 1) > 0` is NULL,
hence not true, for an empty array).  Raises when an inserted row violates the
`NOT NULL` constraint on `embedding`. -/
def updateCompanySkillEmbeddingsBody (cse : List CseRow) (companyId : Nat)
    (skills : Option (List String)) : Except String (List CseRow) :=
  let afterDelete := cse.filter (fun row => !(row.company_id == companyId))
  match skills with
  | none => Except.ok afterDelete
  | some l =>
      if 0 < l.length then
        let rows := triggerNewRows companyId l
        if rows.all cseRowNotNullOk then Except.ok (afterDelete ++ rows)
        else Except.error ("null value in column embedding violates not-null constraint")
      else Except.ok afterDelete

/-- The trigger function including its exception handler (migration lines
286-292): a raised error rolls back the body's changes, is reported as a
warning (the returned flag) and the function still returns `NEW`. -/
def update_company_skill_embeddings (cse : List CseRow) (companyId : Nat)
    (skills : Option (List String)) : List CseRow × Bool :=
  match updateCompanySkillEmbeddingsBody cse companyId skills with
  | Except.ok db => (db, false)
  | Except.error _ => (cse, true)

/-- A row of the `companies` table, restricted to the columns the trigger
reads. -/
structure Company where
  id : Nat
  user_id : Nat
  name : String
  skills : Option (List String)
  deriving Repr, DecidableEq

/-- An insert or skills-update of a `companies` row together with the `AFTER`
trigger `trigger_update_company_skill_embeddings` (migration lines 296-302):
the row mutation is applied, then the trigger runs on the embeddings table.
Because the trigger function catches every error, the mutation itself always
completes; the boolean reports whether a warning was emitted. -/
def applyCompanyMutation (companies : List Company) (cse : List CseRow)
    (newRow : Company) : List Company × List CseRow × Bool :=
  let companies' := companies.filter (fun c => !(c.id == newRow.id)) ++ [newRow]
  let res := update_company_skill_embeddings cse newRow.id newRow.skills
  (companies', res.1, res.2)

/-! ## Helper lemmas about the snapshot store -/

/-- A write for one pair installs exactly that row as the pair's current
snapshot, provided the row passes the table's check constraints. -/
theorem currentSnapshots_write_self (db : List MatchSnapshot)
    (s : MatchSnapshot) (hok : snapshotRowOk s = true) :
    currentSnapshots (writeMatchSnapshot db s) s.user_id s.rfp_id = [s] := by
  simp only [writeMatchSnapshot, applySnapshotOp, hok, if_pos,
    currentSnapshots, List.filter_append, List.filter_filter]
  rw [List.filter_eq_nil_iff.mpr ?_]
  · simp
  · intro t _
    by_cases h1 : t.user_id == s.user_id <;> by_cases h2 : t.rfp_id == s.rfp_id <;>
      simp [h1, h2]

/-- A write for a different pair leaves the current snapshots of `(u, r)`
untouched. -/
theorem currentSnapshots_write_other (db : List MatchSnapshot)
    (s : MatchSnapshot) (u r : Nat)
    (h : (s.user_id == u && s.rfp_id == r) = false) :
    currentSnapshots (writeMatchSnapshot db s) u r = currentSnapshots db u r := by
  simp only [writeMatchSnapshot, applySnapshotOp]
  by_cases hok : snapshotRowOk s
  · simp only [hok, if_pos, currentSnapshots, List.filter_append,
      List.filter_filter]
    have hs : (s.user_id == u && s.rfp_id == r) = false := h
    simp only [List.filter, hs, List.append_nil]
    apply List.filter_congr
    intro t _
    by_cases h1 : t.user_id == u <;> by_cases h2 : t.rfp_id == r <;>
      by_cases h3 : t.user_id == s.user_id <;> by_cases h4 : t.rfp_id == s.rfp_id <;>
      simp_all [Nat.eq_of_beq_eq_true]
  · rw [if_neg hok]
    simp only [currentSnapshots, List.filter_filter]
    apply List.filter_congr
    intro t _
    by_cases h1 : t.user_id == u <;> by_cases h2 : t.rfp_id == r <;>
      by_cases h3 : t.user_id == s.user_id <;> by_cases h4 : t.rfp_id == s.rfp_id <;>
      simp_all [Nat.eq_of_beq_eq_true]

/-- A run of writes none of which concerns the pair `(u, r)` leaves the
pair's current snapshots unchanged. -/
theorem currentSnapshots_foldl_no_write (t : List MatchSnapshot)
    (u r : Nat) :
    ∀ db : List MatchSnapshot,
      (∀ x ∈ t, (x.user_id == u && x.rfp_id == r) = false) →
      currentSnapshots (t.foldl writeMatchSnapshot db) u r =
        currentSnapshots db u r := by
  induction t with
  | nil => intro db _; rfl
  | cons s rest ih =>
      intro db h
      have hs := h s (List.mem_cons_self s rest)
      simp only [List.foldl_cons]
      rw [ih (writeMatchSnapshot db s) (fun x hx => h x (List.mem_cons_of_mem s hx))]
      exact currentSnapshots_write_other db s u r hs

/-- C1: at most one current match snapshot exists per (company user, RFP)
pair: after any sequence of batch writes — in particular after recomputing the
same pair twice — the pair's current snapshots are exactly the single row of
the last write that targeted the pair.  The writes are assumed to pass the
table's check constraints, which the batch scorer guarantees by clamping the
score into [0, 100]. -/
theorem snapshot_replace_unique_current (ws : List MatchSnapshot) (u r : Nat)
    (w : MatchSnapshot) :
    ∀ db : List MatchSnapshot,
      (∀ s ∈ ws, snapshotRowOk s = true) →
      (ws.filter (fun s => s.user_id == u && s.rfp_id == r)).getLast? = some w →
      currentSnapshots (ws.foldl writeMatchSnapshot db) u r = [w] := by
  induction ws with
  | nil => intro db _ hlast; simp at hlast
  | cons s rest ih =>
      intro db hvalid hlast
      have hv : snapshotRowOk s = true := hvalid s (List.mem_cons_self s rest)
      have hvrest : ∀ x ∈ rest, snapshotRowOk x = true :=
        fun x hx => hvalid x (List.mem_cons_of_mem s hx)
      simp only [List.foldl_cons]
      by_cases hs : (s.user_id == u && s.rfp_id == r) = true
      · simp only [List.filter_cons, hs, if_true] at hlast
        cases hrest : rest.filter (fun x => x.user_id == u && x.rfp_id == r) with
        | nil =>
            rw [hrest, List.getLast?_singleton] at hlast
            have hw : w = s := by
              have := hlast
              simp at this
              exact this.symm
            subst hw
            have hnone : ∀ x ∈ rest,
                (x.user_id == u && x.rfp_id == r) = false := by
              intro x hx
              have := List.filter_eq_nil_iff.mp hrest x hx
              simpa using this
            rw [currentSnapshots_foldl_no_write rest u r
              (writeMatchSnapshot db w) hnone]
            have hpair := hs
            rw [Bool.and_eq_true] at hpair
            have hu : w.user_id = u := by simpa using hpair.1
            have hr : w.rfp_id = r := by simpa using hpair.2
            rw [← hu, ← hr]
            exact currentSnapshots_write_self db w hv
        | cons y ys =>
            rw [hrest, List.getLast?_cons_cons, ← hrest] at hlast
            exact ih (writeMatchSnapshot db s) hvrest hlast
      · have hs' : (s.user_id == u && s.rfp_id == r) = false := by
          cases h2 : (s.user_id == u && s.rfp_id == r) <;> simp_all
        simp only [List.filter_cons, hs', Bool.false_eq_true, if_false] at hlast
        exact ih (writeMatchSnapshot db s) hvrest hlast

/-- C1 witness: recomputing the pair (7, 9) twice on a store that also holds a
snapshot of another pair leaves exactly one current snapshot for (7, 9),
holding the second run's values. -/
theorem snapshot_replace_unique_current_witness :
    (([⟨7, 9, 41, true, true, true,
        [("skill", 1), ("must", 1), ("budget", 0), ("deadline", 0),
         ("region", 1)], []⟩,
       ⟨7, 9, 87, true, false, true,
        [("skill", 1), ("must", 1), ("budget", 0), ("deadline", 0),
         ("region", 1)], []⟩] : List MatchSnapshot).filter
          (fun s => s.user_id == 7 && s.rfp_id == 9)).getLast? =
      some ⟨7, 9, 87, true, false, true,
        [("skill", 1), ("must", 1), ("budget", 0), ("deadline", 0),
         ("region", 1)], []⟩ ∧
    currentSnapshots
      (([⟨7, 9, 41, true, true, true,
          [("skill", 1), ("must", 1), ("budget", 0), ("deadline", 0),
           ("region", 1)], []⟩,
         ⟨7, 9, 87, true, false, true,
          [("skill", 1), ("must", 1), ("budget", 0), ("deadline", 0),
           ("region", 1)], []⟩] : List MatchSnapshot).foldl writeMatchSnapshot
        [⟨3, 9, 55, true, true, true,
          [("skill", 1), ("must", 1), ("budget", 0), ("deadline", 0),
           ("region", 1)], []⟩]) 7 9 =
      [⟨7, 9, 87, true, false, true,
        [("skill", 1), ("must", 1), ("budget", 0), ("deadline", 0),
         ("region", 1)], []⟩] := by
  refine ⟨by decide, snapshot_replace_unique_current _ 7 9 _ _ ?_ (by decide)⟩
  decide

/-- C9: every persisted match snapshot has a combined score in [0, 100], and
the bound is maintained by every write to the store: any sequence of inserts
and deletes starting from a store satisfying the bound yields a store
satisfying the bound, because the `CHECK (score >= 0 AND score <= 100)`
constraint rejects any violating insert. -/
theorem snapshot_score_bounded_invariant (ops : List SnapshotOp) :
    ∀ db : List MatchSnapshot,
      (∀ s ∈ db, 0 ≤ s.score ∧ s.score ≤ 100) →
      ∀ s ∈ List.foldl applySnapshotOp db ops, 0 ≤ s.score ∧ s.score ≤ 100 := by
  induction ops with
  | nil => intro db hdb; simpa using hdb
  | cons op rest ih =>
      intro db hdb
      simp only [List.foldl_cons]
      apply ih
      intro s hs
      cases op with
      | ins t =>
          simp only [applySnapshotOp] at hs
          by_cases hok : snapshotRowOk t
          · rw [if_pos hok] at hs
            rcases List.mem_append.mp hs with h | h
            · exact hdb s h
            · have hst : s = t := by simpa using h
              subst hst
              have h1 := hok
              simp only [snapshotRowOk, Bool.and_eq_true, decide_eq_true_eq] at h1
              exact ⟨h1.1.1, h1.1.2⟩
          · rw [if_neg hok] at hs
            exact hdb s hs
      | del cond =>
          simp only [applySnapshotOp] at hs
          exact hdb s (List.mem_of_mem_filter hs)

/-- C9 witness: after a valid insert, a rejected out-of-bounds insert and a
delete on the empty store, the surviving row's score is within [0, 100]. -/
theorem snapshot_score_bounded_invariant_witness :
    0 ≤ (⟨1, 2, 60, true, true, true,
        [("skill", 1), ("must", 1), ("budget", 0), ("deadline", 0),
         ("region", 1)], []⟩ : MatchSnapshot).score ∧
    (⟨1, 2, 60, true, true, true,
        [("skill", 1), ("must", 1), ("budget", 0), ("deadline", 0),
         ("region", 1)], []⟩ : MatchSnapshot).score ≤ 100 :=
  snapshot_score_bounded_invariant
    [SnapshotOp.ins ⟨1, 2, 60, true, true, true,
        [("skill", 1), ("must", 1), ("budget", 0), ("deadline", 0),
         ("region", 1)], []⟩,
     SnapshotOp.ins ⟨1, 3, 140, true, true, true,
        [("skill", 1), ("must", 1), ("budget", 0), ("deadline", 0),
         ("region", 1)], []⟩,
     SnapshotOp.del (fun t => t.user_id == 9)]
    [] (by intro s hs; simp at hs) _ (by decide)

/-- C7: the claim that a company insert or skills update regenerates the
per-skill embedding rows is violated by the code.  At the failing input —
company 1 has one existing embedding row and its skills become `["Python"]` —
the trigger's placeholder insert carries a `NULL` embedding, which violates
the `NOT NULL` constraint on `company_skill_embeddings.embedding`; the
exception handler rolls the whole body back, so the old row survives, no row
for the new skill exists, and only a warning is emitted. -/
theorem skill_embedding_refresh_fails_at_input :
    update_company_skill_embeddings
        [{ company_id := 1, skill_text := "Old", embedding := some [1] }] 1
        (some ["Python"]) =
      ([{ company_id := 1, skill_text := "Old", embedding := some [1] }], true) ∧
    ¬ (∃ row ∈ (update_company_skill_embeddings
          [{ company_id := 1, skill_text := "Old", embedding := some [1] }] 1
          (some ["Python"])).1, row.skill_text = "Python") ∧
    (∃ row ∈ (update_company_skill_embeddings
          [{ company_id := 1, skill_text := "Old", embedding := some [1] }] 1
          (some ["Python"])).1, row.skill_text = "Old") := by
  refine ⟨by decide, by decide, ?_⟩
  exact ⟨{ company_id := 1, skill_text := "Old", embedding := some [1] },
    by decide, by decide⟩

/-- C10: any error raised inside the skill-embedding refresh is contained in
the trigger: the company row mutation always completes (the new row is
present afterwards), and when the trigger body fails the embeddings table is
left unchanged and only a warning flag is set. -/
theorem trigger_error_contained (companies : List Company) (cse : List CseRow)
    (c : Company) :
    c ∈ (applyCompanyMutation companies cse c).1 ∧
    (∀ e, updateCompanySkillEmbeddingsBody cse c.id c.skills = Except.error e →
      (applyCompanyMutation companies cse c).2.1 = cse ∧
      (applyCompanyMutation companies cse c).2.2 = true) := by
  constructor
  · simp [applyCompanyMutation]
  · intro e he
    simp [applyCompanyMutation, update_company_skill_embeddings, he]

/-- C10 witness: a skills update that makes the trigger body raise (non-empty
skills force the `NOT NULL` violation) still completes the company mutation,
leaves the embeddings table unchanged and sets only the warning flag. -/
theorem trigger_error_contained_witness :
    (⟨5, 8, "Acme", some ["Python"]⟩ : Company) ∈
      (applyCompanyMutation []
        [{ company_id := 5, skill_text := "Old", embedding := some [1] }]
        ⟨5, 8, "Acme", some ["Python"]⟩).1 ∧
    (applyCompanyMutation []
        [{ company_id := 5, skill_text := "Old", embedding := some [1] }]
        ⟨5, 8, "Acme", some ["Python"]⟩).2.1 =
      [{ company_id := 5, skill_text := "Old", embedding := some [1] }] ∧
    (applyCompanyMutation []
        [{ company_id := 5, skill_text := "Old", embedding := some [1] }]
        ⟨5, 8, "Acme", some ["Python"]⟩).2.2 = true := by
  have h := trigger_error_contained []
    [{ company_id := 5, skill_text := "Old", embedding := some [1] }]
    ⟨5, 8, "Acme", some ["Python"]⟩
  have h2 := h.2
    ("null value in column embedding violates not-null constraint") (by rfl)
  exact ⟨h.1, h2.1, h2.2⟩

/-! ## Helper lemmas about the retrieval functions -/

/-- Membership in the `combined_results` CTE, unfolded: a row is a candidate
iff it is the scored image of a table row with a strictly positive signal. -/
theorem mem_combined_results {α : Type} (dist : α → α → ℚ) (qe : α)
    (q : String) (db : List (Rfp α)) (row : HybridRow α) :
    row ∈ combined_results dist qe q db ↔
      ∃ x ∈ db, row = mkHybridRow dist qe q x ∧
        (0 < semantic_score_coalesced dist qe x ∨ 0 < keyword_score_raw q x) := by
  simp only [combined_results, List.mem_filter, List.mem_map]
  constructor
  · rintro ⟨⟨x, hx, rfl⟩, hcond⟩
    refine ⟨x, hx, rfl, ?_⟩
    simpa [mkHybridRow] using hcond
  · rintro ⟨x, hx, rfl, hcond⟩
    exact ⟨⟨x, hx, rfl⟩, by simpa [mkHybridRow] using hcond⟩

/-- Every row returned by the hybrid search is a candidate row. -/
theorem mem_of_mem_hybrid_search {α : Type} {dist : α → α → ℚ} {qe : α}
    {q : String} {limit : Int} {db : List (Rfp α)} {row : HybridRow α}
    (h : row ∈ hybrid_search_rfps dist qe q limit db) :
    row ∈ combined_results dist qe q db :=
  (List.mem_insertionSort hybridRowGe).mp
    ((List.take_sublist _ _).subset h)

/-- C2: every row returned by hybrid retrieval carries a combined score equal
to 0.7 times its semantic signal plus 0.3 times its lexical signal, where a
missing semantic signal (no embedding) contributes 0. -/
theorem hybrid_combined_score_formula {α : Type} (dist : α → α → ℚ) (qe : α)
    (q : String) (limit : Int) (db : List (Rfp α)) :
    ∀ row ∈ hybrid_search_rfps dist qe q limit db,
      row.rfp ∈ db ∧
      row.semantic_score = (semantic_score_raw dist qe row.rfp).getD 0 ∧
      (row.rfp.embedding = none → row.semantic_score = 0) ∧
      row.keyword_score = keyword_score_raw q row.rfp ∧
      row.combined_score =
        7 / 10 * row.semantic_score + 3 / 10 * row.keyword_score := by
  intro row hrow
  obtain ⟨x, hx, rfl, _⟩ :=
    (mem_combined_results dist qe q db row).mp (mem_of_mem_hybrid_search hrow)
  refine ⟨hx, rfl, ?_, rfl, ?_⟩
  · intro hnone
    simp only [mkHybridRow] at hnone
    simp [mkHybridRow, semantic_score_coalesced, semantic_score_raw, hnone]
  · simp only [mkHybridRow]
    ring

/-- C3 (amended): the hybrid retrieval result list is sorted by non-increasing
combined score — that is the full extent of the `ORDER BY cr.combined_score
DESC` clause; no tie-break key exists in the code. -/
theorem hybrid_sorted_by_combined_desc {α : Type} (dist : α → α → ℚ) (qe : α)
    (q : String) (limit : Int) (db : List (Rfp α)) :
    (hybrid_search_rfps dist qe q limit db).Pairwise
      (fun x y => y.combined_score ≤ x.combined_score) :=
  List.Pairwise.sublist (List.take_sublist _ _)
    (List.sorted_insertionSort hybridRowGe (combined_results dist qe q db))

/-- C3 counterexample: two candidate RFPs with identical combined scores,
stored with the larger id first, are returned in table order `[2, 1]` —
descending-score order alone does not force the tie to be broken by
ascending RFP id, refuting the claimed ordering at this input. -/
theorem hybrid_order_tiebreak_counterexample :
    ¬ (hybrid_search_rfps (fun _ _ : Unit => 0) () ("ai") 20
        [{ id := 2, title := "ai beta", description := "d", category := none,
           issuing_org := "o", embedding := none },
         { id := 1, title := "ai alpha", description := "d", category := none,
           issuing_org := "o", embedding := none }]).Pairwise
      (fun x y => y.combined_score < x.combined_score ∨
        (x.combined_score = y.combined_score ∧ x.rfp.id < y.rfp.id)) := by
  intro h
  have e : hybrid_search_rfps (fun _ _ : Unit => 0) () ("ai") 20
      [{ id := 2, title := "ai beta", description := "d", category := none,
         issuing_org := "o", embedding := none },
       { id := 1, title := "ai alpha", description := "d", category := none,
         issuing_org := "o", embedding := none }] =
      [mkHybridRow (fun _ _ : Unit => 0) () ("ai")
        { id := 2, title := "ai beta", description := "d", category := none,
          issuing_org := "o", embedding := none },
       mkHybridRow (fun _ _ : Unit => 0) () ("ai")
        { id := 1, title := "ai alpha", description := "d", category := none,
          issuing_org := "o", embedding := none }] := by
    simp +decide [hybrid_search_rfps, combined_results, mkHybridRow,
      keyword_score_raw, semantic_score_coalesced, semantic_score_raw,
      hybridRowGe]
  rw [e] at h
  have hrel := (List.pairwise_cons.mp h).1 _ (List.mem_singleton.mpr rfl)
  simp +decide [mkHybridRow, keyword_score_raw, semantic_score_coalesced,
    semantic_score_raw] at hrel

/-- C4: an RFP is in the hybrid candidate set iff at least one of its two
signals is strictly positive; an RFP with neither signal is excluded from the
hybrid results altogether. -/
theorem hybrid_candidate_iff_positive_signal {α : Type} (dist : α → α → ℚ)
    (qe : α) (q : String) (db : List (Rfp α)) (r : Rfp α)
    (hnd : (db.map (fun x => x.id)).Nodup) (hr : r ∈ db) :
    ((∃ row ∈ combined_results dist qe q db, row.rfp.id = r.id) ↔
      (0 < (semantic_score_raw dist qe r).getD 0 ∨ 0 < keyword_score_raw q r)) ∧
    (¬ 0 < (semantic_score_raw dist qe r).getD 0 →
      ¬ 0 < keyword_score_raw q r →
      ∀ limit : Int, ∀ row ∈ hybrid_search_rfps dist qe q limit db,
        row.rfp.id ≠ r.id) := by
  have hmk : ∀ x : Rfp α, (mkHybridRow dist qe q x).rfp = x := by
    intro x; simp [mkHybridRow]
  constructor
  · constructor
    · rintro ⟨row, hrow, hid⟩
      obtain ⟨x, hx, rfl, hcond⟩ := (mem_combined_results dist qe q db row).mp hrow
      rw [hmk] at hid
      have hxr : x = r := List.inj_on_of_nodup_map hnd hx hr hid
      subst hxr
      exact hcond
    · intro hcond
      refine ⟨mkHybridRow dist qe q r,
        (mem_combined_results dist qe q db _).mpr ⟨r, hr, rfl, hcond⟩, ?_⟩
      rw [hmk]
  · intro hsem hkw limit row hrow
    obtain ⟨x, hx, rfl, hcond⟩ :=
      (mem_combined_results dist qe q db row).mp (mem_of_mem_hybrid_search hrow)
    rw [hmk]
    intro hid
    have hxr : x = r := List.inj_on_of_nodup_map hnd hx hr hid
    subst hxr
    rcases hcond with h | h
    · exact hsem h
    · exact hkw h

/-- C6: the lexical signal is a deterministic score over the four text
columns: a title hit scores 1, otherwise a description hit scores 0.5,
otherwise a category hit 0.3, otherwise an organization hit 0.2, otherwise 0,
and these weights are strictly decreasing. -/
theorem keyword_score_weight_order {α : Type} (q : String) (r : Rfp α) :
    (sqlIlikeContains r.title q = true → keyword_score_raw q r = 1) ∧
    (sqlIlikeContains r.title q = false →
      sqlIlikeContains r.description q = true →
      keyword_score_raw q r = 1 / 2) ∧
    (sqlIlikeContains r.title q = false →
      sqlIlikeContains r.description q = false →
      optIlikeContains r.category q = true →
      keyword_score_raw q r = 3 / 10) ∧
    (sqlIlikeContains r.title q = false →
      sqlIlikeContains r.description q = false →
      optIlikeContains r.category q = false →
      sqlIlikeContains r.issuing_org q = true →
      keyword_score_raw q r = 1 / 5) ∧
    (sqlIlikeContains r.title q = false →
      sqlIlikeContains r.description q = false →
      optIlikeContains r.category q = false →
      sqlIlikeContains r.issuing_org q = false →
      keyword_score_raw q r = 0) ∧
    ((0 : ℚ) < 1 / 5 ∧ (1 : ℚ) / 5 < 3 / 10 ∧ (3 : ℚ) / 10 < 1 / 2 ∧
      (1 : ℚ) / 2 < 1) := by
  refine ⟨?_, ?_, ?_, ?_, ?_, by norm_num⟩ <;>
    · intros
      simp [keyword_score_raw, *]

/-- C8: an RFP without an embedding never appears in the semantic-only
results, but when its lexical signal is positive it is a hybrid candidate
with combined score 0.3 times that signal, and is returned by the hybrid
search whenever the limit does not truncate it away. -/
theorem no_embedding_keyword_only_path {α : Type} (dist : α → α → ℚ) (qe : α)
    (threshold : ℚ) (slimit : Int) (q : String) (limit : Int)
    (db : List (Rfp α)) (r : Rfp α) (hr : r ∈ db)
    (hemb : r.embedding = none) :
    (∀ row ∈ search_rfps_by_embedding dist qe threshold slimit db,
      row.rfp ≠ r) ∧
    (0 < keyword_score_raw q r →
      (∃ row ∈ combined_results dist qe q db,
        row.rfp = r ∧ row.semantic_score = 0 ∧
        row.combined_score = 3 / 10 * keyword_score_raw q r) ∧
      ((combined_results dist qe q db).length ≤ limit.toNat →
        ∃ row ∈ hybrid_search_rfps dist qe q limit db,
          row.rfp = r ∧
          row.combined_score = 3 / 10 * keyword_score_raw q r)) := by
  constructor
  · intro row hrow
    have hrow' : row ∈ db.filterMap (fun x =>
        match x.embedding with
        | none => none
        | some e =>
            if threshold ≤ 1 - dist e qe then
              some { rfp := x, similarity_score := 1 - dist e qe,
                     has_embedding := true }
            else none) :=
      (List.mem_insertionSort semanticRowGe).mp
        ((List.take_sublist _ _).subset hrow)
    obtain ⟨x, hx, hfx⟩ := List.mem_filterMap.mp hrow'
    intro hcontra
    cases hx_emb : x.embedding with
    | none => simp only [hx_emb] at hfx; exact Option.noConfusion hfx
    | some e =>
        simp only [hx_emb] at hfx
        by_cases hth : threshold ≤ 1 - dist e qe
        · rw [if_pos hth] at hfx
          have hxr : x = r := by
            have := congrArg SemanticRow.rfp (Option.some.inj hfx)
            simpa [hcontra] using this
          rw [hxr] at hx_emb
          rw [hemb] at hx_emb
          exact Option.noConfusion hx_emb
        · rw [if_neg hth] at hfx
          exact Option.noConfusion hfx
  · intro hkw
    have hsem0 : semantic_score_coalesced dist qe r = 0 := by
      simp [semantic_score_coalesced, semantic_score_raw, hemb]
    have hmem : mkHybridRow dist qe q r ∈ combined_results dist qe q db :=
      (mem_combined_results dist qe q db _).mpr
        ⟨r, hr, rfl, Or.inr hkw⟩
    have hfields : (mkHybridRow dist qe q r).rfp = r ∧
        (mkHybridRow dist qe q r).semantic_score = 0 ∧
        (mkHybridRow dist qe q r).combined_score =
          3 / 10 * keyword_score_raw q r := by
      refine ⟨by simp [mkHybridRow], by simp [mkHybridRow, hsem0], ?_⟩
      simp only [mkHybridRow, hsem0]
      ring
    refine ⟨⟨mkHybridRow dist qe q r, hmem, hfields⟩, ?_⟩
    intro hlen
    refine ⟨mkHybridRow dist qe q r, ?_, hfields.1, hfields.2.2⟩
    unfold hybrid_search_rfps
    rw [List.take_of_length_le]
    · exact (List.mem_insertionSort hybridRowGe).mpr hmem
    · rw [List.length_insertionSort]
      exact hlen

/-- C5 counterexample: for concrete 1536-dimensional embeddings — all-ones
query against all-minus-ones RFP embedding — the semantic signal
`1 - cosine_distance` equals −1, so it does not always lie in [0, 1]. -/
theorem semantic_signal_negative_counterexample :
    semanticSignal (fun _ : Fin 1536 => (1 : ℝ)) (fun _ : Fin 1536 => (-1 : ℝ)) = -1 ∧
    ¬ (0 ≤ semanticSignal (fun _ : Fin 1536 => (1 : ℝ))
        (fun _ : Fin 1536 => (-1 : ℝ))) := by
  have hval : semanticSignal (fun _ : Fin 1536 => (1 : ℝ))
      (fun _ : Fin 1536 => (-1 : ℝ)) = -1 := by
    simp only [semanticSignal, cosineDistance, dotProduct1536, one_mul, mul_one,
      mul_neg, neg_neg, neg_mul, Finset.sum_const, Finset.card_univ,
      Fintype.card_fin, nsmul_eq_mul, Nat.cast_ofNat]
    rw [Real.sqrt_mul_self (by norm_num : (0 : ℝ) ≤ 1536)]
    norm_num
  exact ⟨hval, by rw [hval]; norm_num⟩

/-- C5 (amended): for every RFP embedding, the semantic signal equals
`1 - cosine_distance(embedding, query)`, and for nonzero vectors it lies in
[−1, 1] (not [0, 1]: negative cosine similarity yields a negative signal). -/
theorem semantic_signal_eq_and_bounds (emb qe : Fin 1536 → ℝ)
    (he : 0 < dotProduct1536 emb emb) (hq : 0 < dotProduct1536 qe qe) :
    semanticSignal emb qe = 1 - cosineDistance emb qe ∧
    -1 ≤ semanticSignal emb qe ∧ semanticSignal emb qe ≤ 1 := by
  refine ⟨rfl, ?_, ?_⟩ <;>
  · have hD : 0 < Real.sqrt (dotProduct1536 emb emb * dotProduct1536 qe qe) :=
      Real.sqrt_pos.mpr (mul_pos he hq)
    have hsplit : Real.sqrt (dotProduct1536 emb emb * dotProduct1536 qe qe) =
        Real.sqrt (dotProduct1536 emb emb) * Real.sqrt (dotProduct1536 qe qe) :=
      Real.sqrt_mul he.le _
    have hcs : dotProduct1536 emb qe ≤
        Real.sqrt (dotProduct1536 emb emb) * Real.sqrt (dotProduct1536 qe qe) := by
      have h := Real.sum_mul_le_sqrt_mul_sqrt Finset.univ emb qe
      simpa [dotProduct1536, pow_two] using h
    have hcs2 : -(dotProduct1536 emb qe) ≤
        Real.sqrt (dotProduct1536 emb emb) * Real.sqrt (dotProduct1536 qe qe) := by
      have h := Real.sum_mul_le_sqrt_mul_sqrt Finset.univ (fun i => -(emb i)) qe
      simpa [dotProduct1536, pow_two, Finset.sum_neg_distrib, neg_mul] using h
    have hform : semanticSignal emb qe = dotProduct1536 emb qe /
        Real.sqrt (dotProduct1536 emb emb * dotProduct1536 qe qe) := by
      simp [semanticSignal, cosineDistance]
    rw [hform]
    first
      | exact le_div_iff₀ hD |>.mpr (by rw [hsplit] at *; linarith)
      | exact (div_le_one hD).mpr (by rw [hsplit] at *; linarith)

/-- C5 witness: the amended bounds instantiated at concrete nonzero vectors
(the all-ones embedding against itself). -/
theorem semantic_signal_eq_and_bounds_witness :
    0 < dotProduct1536 (fun _ : Fin 1536 => (1 : ℝ)) (fun _ : Fin 1536 => (1 : ℝ)) ∧
    (-1 ≤ semanticSignal (fun _ : Fin 1536 => (1 : ℝ)) (fun _ : Fin 1536 => (1 : ℝ)) ∧
      semanticSignal (fun _ : Fin 1536 => (1 : ℝ)) (fun _ : Fin 1536 => (1 : ℝ)) ≤ 1) := by
  have hpos : 0 < dotProduct1536 (fun _ : Fin 1536 => (1 : ℝ))
      (fun _ : Fin 1536 => (1 : ℝ)) := by
    simp only [dotProduct1536, one_mul]
    rw [Finset.sum_const]
    simp only [Finset.card_univ, Fintype.card_fin, nsmul_eq_mul]
    norm_num
  exact ⟨hpos,
    (semantic_signal_eq_and_bounds (fun _ : Fin 1536 => (1 : ℝ))
      (fun _ : Fin 1536 => (1 : ℝ)) hpos hpos).2⟩

/-! ## Concrete instances used by the witnesses -/

/-- Trivial distance operator for embedding-free examples. -/
def exDist : Unit → Unit → ℚ := fun _ _ => 0

/-- Example RFP whose title contains the query `"ai"`. -/
def exRfpHit : Rfp Unit :=
  { id := 1, title := "ai system", description := "d", category := none,
    issuing_org := "org", embedding := none }

/-- Example RFP matching the query `"ai"` in no field. -/
def exRfpMiss : Rfp Unit :=
  { id := 2, title := "t", description := "d", category := none,
    issuing_org := "o", embedding := none }

/-- C2 witness: the formula instantiated at a one-row table whose RFP has a
title hit and no embedding. -/
theorem hybrid_combined_score_formula_witness :
    (mkHybridRow exDist () ("ai") exRfpHit).rfp ∈ [exRfpHit] ∧
    (mkHybridRow exDist () ("ai") exRfpHit).semantic_score =
      (semantic_score_raw exDist ()
        (mkHybridRow exDist () ("ai") exRfpHit).rfp).getD 0 ∧
    ((mkHybridRow exDist () ("ai") exRfpHit).rfp.embedding = none →
      (mkHybridRow exDist () ("ai") exRfpHit).semantic_score = 0) ∧
    (mkHybridRow exDist () ("ai") exRfpHit).keyword_score =
      keyword_score_raw ("ai") (mkHybridRow exDist () ("ai") exRfpHit).rfp ∧
    (mkHybridRow exDist () ("ai") exRfpHit).combined_score =
      7 / 10 * (mkHybridRow exDist () ("ai") exRfpHit).semantic_score +
      3 / 10 * (mkHybridRow exDist () ("ai") exRfpHit).keyword_score :=
  hybrid_combined_score_formula exDist () ("ai") 20 [exRfpHit] _ (by
    simp +decide [hybrid_search_rfps, combined_results, mkHybridRow,
      keyword_score_raw, semantic_score_coalesced, semantic_score_raw,
      hybridRowGe, exRfpHit, exDist])

/-- C4 witness: the candidate criterion instantiated at a two-row table — the
title-hit RFP is a candidate, the no-signal RFP is excluded. -/
theorem hybrid_candidate_iff_positive_signal_witness :
    (((∃ row ∈ combined_results exDist () ("ai") [exRfpHit, exRfpMiss],
        row.rfp.id = exRfpHit.id) ↔
      (0 < (semantic_score_raw exDist () exRfpHit).getD 0 ∨
        0 < keyword_score_raw ("ai") exRfpHit)) ∧
    (¬ 0 < (semantic_score_raw exDist () exRfpHit).getD 0 →
      ¬ 0 < keyword_score_raw ("ai") exRfpHit →
      ∀ limit : Int,
        ∀ row ∈ hybrid_search_rfps exDist () ("ai") limit [exRfpHit, exRfpMiss],
          row.rfp.id ≠ exRfpHit.id)) ∧
    (((∃ row ∈ combined_results exDist () ("ai") [exRfpHit, exRfpMiss],
        row.rfp.id = exRfpMiss.id) ↔
      (0 < (semantic_score_raw exDist () exRfpMiss).getD 0 ∨
        0 < keyword_score_raw ("ai") exRfpMiss)) ∧
    (¬ 0 < (semantic_score_raw exDist () exRfpMiss).getD 0 →
      ¬ 0 < keyword_score_raw ("ai") exRfpMiss →
      ∀ limit : Int,
        ∀ row ∈ hybrid_search_rfps exDist () ("ai") limit [exRfpHit, exRfpMiss],
          row.rfp.id ≠ exRfpMiss.id)) :=
  ⟨hybrid_candidate_iff_positive_signal exDist () ("ai") [exRfpHit, exRfpMiss]
      exRfpHit (by decide) (by decide),
   hybrid_candidate_iff_positive_signal exDist () ("ai") [exRfpHit, exRfpMiss]
      exRfpMiss (by decide) (by decide)⟩

/-- C6 witness: the branch conclusions instantiated at concrete inputs, a
title hit scoring 1 and an all-miss scoring 0. -/
theorem keyword_score_weight_order_witness :
    keyword_score_raw ("ai") exRfpHit = 1 ∧
    keyword_score_raw ("ai") exRfpMiss = 0 :=
  ⟨(keyword_score_weight_order ("ai") exRfpHit).1 (by decide),
   (keyword_score_weight_order ("ai") exRfpMiss).2.2.2.2.1
      (by decide) (by decide) (by decide) (by decide)⟩

/-- C8 witness: the keyword-only path instantiated at a one-row table whose
RFP has no embedding and a title hit. -/
theorem no_embedding_keyword_only_path_witness :
    (∀ row ∈ search_rfps_by_embedding exDist () 0 20 [exRfpHit],
      row.rfp ≠ exRfpHit) ∧
    (0 < keyword_score_raw ("ai") exRfpHit →
      (∃ row ∈ combined_results exDist () ("ai") [exRfpHit],
        row.rfp = exRfpHit ∧ row.semantic_score = 0 ∧
        row.combined_score = 3 / 10 * keyword_score_raw ("ai") exRfpHit) ∧
      ((combined_results exDist () ("ai") [exRfpHit]).length ≤ (20 : Int).toNat →
        ∃ row ∈ hybrid_search_rfps exDist () ("ai") 20 [exRfpHit],
          row.rfp = exRfpHit ∧
          row.combined_score = 3 / 10 * keyword_score_raw ("ai") exRfpHit)) :=
  no_embedding_keyword_only_path exDist () 0 20 ("ai") 20 [exRfpHit] exRfpHit
    (by decide) (by rfl)

end RfpRadar
